import Mathlib

/-!
Verification of the deadline-countdown bot (`src/main.py`).

The development shallowly embeds the pure and state-manipulating parts of the
program: the MarkdownV2 escaping function `clean_markdown`, the tiered message
composer `format_message`, date parsing (`datetime.strptime` with format
`%Y-%m-%d`) and Python `date` ordinal arithmetic, and the event handlers
`handle_deadline` / `new_chat_member` together with the process startup `main`.
Mutable module-level state (`deadlines`, `scheduled_jobs`, the database table)
is modelled as an explicit `BotState` record threaded through the handlers, and
every externally visible action (replies, sends, store writes, job changes) is
recorded in an event trace.
-/

/-- The character backslash, the MarkdownV2 escape marker. -/
def bslash : Char := Char.ofNat 92

/-- The characters of the Python string `escape_chars = r'_*[]()~`>#+-=|{}.!'`
in `clean_markdown` (backtick and braces written via their code points). -/
def escape_chars : List Char :=
  [ '_', '*', '[', ']', '(', ')', '~', Char.ofNat 96, '>', '#', '+', '-', '=',
    '|', Char.ofNat 123, Char.ofNat 125, '.', '!' ]

/-- Whether a character is one of the MarkdownV2 special characters. -/
def isSpecial (c : Char) : Bool := escape_chars.contains c

/-- One left-to-right pass of `re.sub` with pattern
`(?<!\\)([_*\[\]()~`>#+\-=|{}.!])` and replacement `\\\1`: a special character
is prefixed with a backslash unless the character before it in the original
text is a backslash. `prev` is the original character preceding the current
position (`none` at the start of the text). -/
def cleanFrom : Option Char → List Char → List Char
  | _, [] => []
  | prev, c :: rest =>
    if isSpecial c = true ∧ prev ≠ some bslash then
      bslash :: c :: cleanFrom (some c) rest
    else
      c :: cleanFrom (some c) rest

/-- `clean_markdown` on a list of characters. -/
def cleanList (s : List Char) : List Char := cleanFrom none s

/-- The source function `clean_markdown(text)`. -/
def clean_markdown (s : String) : String := String.mk (cleanList s.data)

/-- Every special character of the list is immediately preceded by a
backslash, where `p` is the character standing just before the list. -/
def escapedFrom : Option Char → List Char → Bool
  | _, [] => true
  | p, c :: rest => (!isSpecial c || p == some bslash) && escapedFrom (some c) rest

theorem isSpecial_bslash : isSpecial bslash = false := by decide

theorem escapedFrom_cleanFrom (l : List Char) :
    ∀ p, escapedFrom p (cleanFrom p l) = true := by
  induction l with
  | nil => intro p; rfl
  | cons c rest ih =>
    intro p
    by_cases h : isSpecial c = true ∧ p ≠ some bslash
    · simp only [cleanFrom, if_pos h, escapedFrom, isSpecial_bslash]
      simp [h.1, ih (some c)]
    · simp only [cleanFrom, if_neg h, escapedFrom]
      rcases Decidable.not_and_iff_or_not.mp h with h1 | h2
      · simp [Bool.not_eq_true] at h1
        simp [h1, ih (some c)]
      · simp only [ne_eq, Decidable.not_not] at h2
        simp [h2, ih (some c)]

theorem cleanFrom_of_escaped (l : List Char) :
    ∀ p, escapedFrom p l = true → cleanFrom p l = l := by
  induction l with
  | nil => intro p _; rfl
  | cons c rest ih =>
    intro p hp
    simp only [escapedFrom, Bool.and_eq_true, Bool.or_eq_true, Bool.not_eq_true'] at hp
    have hcond : ¬ (isSpecial c = true ∧ p ≠ some bslash) := by
      rcases hp.1 with h | h
      · intro hc; rw [hc.1] at h; cases h
      · intro hc; exact hc.2 (by simpa using h)
    simp only [cleanFrom, if_neg hcond]
    rw [ih (some c) hp.2]

/-- The escaping pass is idempotent on character lists. -/
theorem cleanList_idem (l : List Char) : cleanList (cleanList l) = cleanList l :=
  cleanFrom_of_escaped (cleanFrom none l) none (escapedFrom_cleanFrom l none)

/-- `clean_markdown` is idempotent on strings. -/
theorem clean_markdown_idem (s : String) :
    clean_markdown (clean_markdown s) = clean_markdown s := by
  cases s with
  | mk data => simp only [clean_markdown, cleanList_idem]

/-- A text with no special characters passes through unchanged. -/
theorem cleanFrom_of_no_special (l : List Char) :
    ∀ p, (∀ c ∈ l, isSpecial c = false) → cleanFrom p l = l := by
  induction l with
  | nil => intro p _; rfl
  | cons c rest ih =>
    intro p hl
    have hc : isSpecial c = false := hl c (List.mem_cons_self c rest)
    have hcond : ¬ (isSpecial c = true ∧ p ≠ some bslash) := by
      intro hcontra; rw [hc] at hcontra; cases hcontra.1
    simp only [cleanFrom, if_neg hcond]
    rw [ih (some c) (fun d hd => hl d (List.mem_cons_of_mem c hd))]

/-- With no backslash anywhere in the input and none just before it, the pass
escapes exactly the special characters, one backslash each. -/
theorem cleanFrom_of_no_bslash (l : List Char) :
    ∀ p, bslash ∉ l → p ≠ some bslash →
      cleanFrom p l =
        l.flatMap (fun c => if isSpecial c = true then [bslash, c] else [c]) := by
  induction l with
  | nil => intro p _ _; rfl
  | cons c rest ih =>
    intro p hmem hp
    have hc : c ≠ bslash := fun h => hmem (h ▸ List.mem_cons_self c rest)
    have hrest : bslash ∉ rest := fun h => hmem (List.mem_cons_of_mem c h)
    have hpc : (some c : Option Char) ≠ some bslash := by
      intro h; exact hc (Option.some_injective _ h)
    by_cases hs : isSpecial c = true
    · have hcond : isSpecial c = true ∧ p ≠ some bslash := ⟨hs, hp⟩
      simp only [cleanFrom, if_pos hcond, List.flatMap_cons, if_pos hs]
      rw [ih (some c) hrest hpc]
      rfl
    · have hcond : ¬ (isSpecial c = true ∧ p ≠ some bslash) := fun h => hs h.1
      simp only [cleanFrom, if_neg hcond, List.flatMap_cons, if_neg hs]
      rw [ih (some c) hrest hpc]
      rfl

/-- A calendar date as in Python `datetime.date`: year, month, day. -/
structure Date where
  year : Nat
  month : Nat
  day : Nat
deriving DecidableEq, Repr

/-- Gregorian leap year, as in Python `calendar.isleap`. -/
def isLeap (y : Nat) : Bool := y % 4 == 0 && (y % 100 != 0 || y % 400 == 0)

/-- Number of days in a month of a given year (months numbered from 1). -/
def daysInMonth (y m : Nat) : Nat :=
  if m = 2 then (if isLeap y then 29 else 28)
  else if m = 4 ∨ m = 6 ∨ m = 9 ∨ m = 11 then 30
  else 31

/-- Days in year `y` before month `m`. -/
def daysBeforeMonth (y m : Nat) : Nat :=
  ((List.range (m - 1)).map (fun i => daysInMonth y (i + 1))).sum

/-- Python `date.toordinal`: day count with 0001-01-01 as day 1, proleptic
Gregorian calendar. -/
def toordinal (d : Date) : Nat :=
  365 * (d.year - 1) + (d.year - 1) / 4 - (d.year - 1) / 100 + (d.year - 1) / 400
    + daysBeforeMonth d.year d.month + d.day

/-- Python date subtraction `(a - b).days` as a signed integer. -/
def daysDiff (a b : Date) : Int := (toordinal a : Int) - (toordinal b : Int)

/-- Digit run to a number, as the strptime groups are converted by `int`. -/
def digitsToNat (l : List Char) : Nat := l.foldl (fun a c => 10 * a + (c.toNat - 48)) 0

/-- A numeric strptime field: accepts a pure digit run whose length lies in
`[minLen, maxLen]` and returns its value. -/
def parseNatField (minLen maxLen : Nat) (l : List Char) : Option Nat :=
  if minLen ≤ l.length ∧ l.length ≤ maxLen ∧ (∀ c ∈ l, c.isDigit = true) then
    some (digitsToNat l)
  else none

/-- Splitting of a character list at every dash, as `text.split("-")` would:
the dashes of the strptime format string must occur literally. -/
def splitOnDash : List Char → List (List Char)
  | [] => [[]]
  | c :: rest =>
    if c = '-' then [] :: splitOnDash rest
    else
      match splitOnDash rest with
      | [] => [[c]]
      | g :: gs => (c :: g) :: gs

/-- `datetime.strptime(text, "%Y-%m-%d").date()` wrapped in the handler's
`try`: `%Y` is exactly four digits, `%m` and `%d` one or two digits, the
whole string must be consumed, and the `date` constructor validates the
ranges (month 1..12, day within the month, year at least 1); any failure
raises `ValueError`, modelled as `none`. -/
def parse_date (s : String) : Option Date :=
  match splitOnDash s.data with
  | [ys, ms, ds] =>
    match parseNatField 4 4 ys, parseNatField 1 2 ms, parseNatField 1 2 ds with
    | some y, some m, some dd =>
      if 1 ≤ y ∧ 1 ≤ m ∧ m ≤ 12 ∧ 1 ≤ dd ∧ dd ≤ daysInMonth y m then
        some ⟨y, m, dd⟩
      else none
    | _, _, _ => none
  | _ => none

/-- Zero-padding to a fixed width, as in `date.__str__` (ISO format). -/
def padNum (w n : Nat) : String :=
  String.mk (List.replicate (w - (toString n).length) '0') ++ toString n

/-- Python `str(deadline_date)`: ISO `YYYY-MM-DD`. -/
def dateStr (d : Date) : String :=
  padNum 4 d.year ++ "-" ++ padNum 2 d.month ++ "-" ++ padNum 2 d.day

/-- The `days == 0` text of `format_message`. -/
def todayMsg : String :=
  "🚨🚨🚨 TODAY IS THE DEADLINE! 🚨🚨🚨\n\n🔥 DROP EVERYTHING AND FINISH! 🔥\n▪️ No procrastination!\n▪️ No excuses!\n▪️ Just GET IT DONE! ✅"

/-- The `days == 1` text of `format_message`. -/
def oneDayMsg : String :=
  "⚠️⚠️ ONE DAY LEFT! ⚠️⚠️\n\n⏰ FINAL PUSH! ⏰\n▪️ Review everything!\n▪️ Fix last-minute issues!\n▪️ You\x27re almost there! 💪"

/-- The `days <= 3` text of `format_message` (the spec's urgent-short band). -/
def urgentShortMsg (days : Int) : String :=
  "🔔 " ++ toString days ++ " DAYS LEFT! 🔔\n\n❗ Urgent Action Needed! ❗\n▪️ Prioritize critical tasks!\n▪️ No distractions!\n▪️ Stay focused! 🎯"

/-- The `days <= 7` text of `format_message` (the spec's high-alert band). -/
def highAlertMsg (days : Int) : String :=
  "🔥🔥🔥 **" ++ toString days ++ " DAYS LEFT!** 🔥🔥🔥\n\n🚨🚨 **TIME IS RUNNING OUT!** 🚨🚨\n⚠️ **NO ROOM FOR MISTAKES!** ⚠️\n🛑 **FINAL PUSH!** 🛑\n🔥 **WORK FAST!** 🔥 **WORK SMART!** 🔥 **NO EXCUSES!** 🚀\n⏳ **EVERY SECOND COUNTS!** ⏳"

/-- The `days <= 14` text of `format_message` (the spec's elevated-caution band). -/
def cautionMsg (days : Int) : String :=
  "⚠️⚠️⚠️ **" ++ toString days ++ " DAYS REMAINING!** ⚠️⚠️⚠️\n\n🚨 **DANGER ZONE!** 🚨\n🔥 **DON\x27T GET COMPLACENT!** 🔥\n⏳ **THE CLOCK IS MERCILESS!** ⏳\n💀 **WASTE A DAY, REGRET IT FOREVER!** 💀\n🚀 **FULL SPEED AHEAD!** 🚀"

/-- The final `else` text of `format_message` (the spec's calm long-range band). -/
def calmMsg (days : Int) : String :=
  "🟥🟥🟥 **" ++ toString days ++ " DAYS LEFT!** 🟥🟥🟥\n\n🚨 **RED ALERT!** 🚨\n🔥 **THE DEADLINE IS WATCHING YOU!** 🔥\n💀 **EVERY HOUR YOU WASTE BRINGS DOOM!** 💀\n⏳ **NO SECOND CHANCES!** ⏳\n🛑 **START WORKING NOW OR SUFFER LATER!** 🛑"

/-- The source function `format_message(days)`: the `if/elif` chain selecting
a tone text by the number of days left, each passed through `clean_markdown`. -/
def format_message (days : Int) : String :=
  if days = 0 then clean_markdown todayMsg
  else if days = 1 then clean_markdown oneDayMsg
  else if days ≤ 3 then clean_markdown (urgentShortMsg days)
  else if days ≤ 7 then clean_markdown (highAlertMsg days)
  else if days ≤ 14 then clean_markdown (cautionMsg days)
  else clean_markdown (calmMsg days)

/-- Python dict assignment `d[k] = v` on an association list: overwrite in
place if the key is present, append otherwise. -/
def dictSet {α : Type} (k : Int) (v : α) : List (Int × α) → List (Int × α)
  | [] => [(k, v)]
  | (k0, v0) :: t => if k0 = k then (k, v) :: t else (k0, v0) :: dictSet k v t

/-- Removal of a key from an association list (the `job.remove()` effect on
the scheduler's job table). -/
def delKey {α : Type} (k : Int) : List (Int × α) → List (Int × α)
  | [] => []
  | (k0, v0) :: t => if k0 = k then delKey k t else (k0, v0) :: delKey k t

/-- Association-list lookup (Python `d[k]` / `k in d`). -/
def getKey {α : Type} (k : Int) : List (Int × α) → Option α
  | [] => none
  | (k0, v0) :: t => if k0 = k then some v0 else getKey k t

/-- The mutable state of the process: the module-level `deadlines` cache, the
database table `deadlines` (the store), the module-level `scheduled_jobs`
table mirroring the scheduler's per-group jobs, and a counter that names the
next job instance (so that an old and a new job for a group are
distinguishable). -/
structure BotState where
  deadlines : List (Int × Date)
  store : List (Int × Date)
  jobs : List (Int × Nat)
  nextJob : Nat
deriving DecidableEq, Repr

/-- Externally visible actions of the handlers, in program order. -/
inductive Ev where
  | cacheUpdate (gid : Int) (d : Date)
  | storeUpsert (gid : Int) (d : Date)
  | storageException (gid : Int)
  | jobRemoved (gid : Int) (j : Nat)
  | jobAdded (gid : Int) (j : Nat)
  | reply (gid : Int) (text : String)
  | sent (gid : Int) (text : String)
  | prompt (gid : Int) (text : String)
deriving DecidableEq, Repr

/-- The reply of the `except ValueError` branch of `handle_deadline`. -/
def formatErrorMsg : String :=
  "❌ Invalid Format\\!\nPlease use `YYYY-MM-DD` (e.g., `2025-12-31`)."

/-- The reply of the `days_left < 0` branch of `handle_deadline`. -/
def pastMsg : String :=
  "❌ That date has already passed\\!\nSet a future date like `2025-12-31`. "

/-- The confirmation f-string of `handle_deadline`, before `clean_markdown`. -/
def confirmation_message (d : Date) (days_left : Int) : String :=
  "✅ Deadline Set\\! ✅\n\n🗓 Date: `" ++ dateStr d ++ "`\n⏳ Days Left: `"
    ++ toString days_left ++ "`\n\n📢 Daily reminders will arrive at 9:00 AM UTC\\! ⏰"

/-- The welcome text sent by `ask_for_deadline`, before `clean_markdown`. -/
def welcomeTemplate : String :=
  "🎉 Welcome to Deadline Countdown Bot! 🎉\n\n📅 To get started, send me your deadline in this format:\n`YYYY-MM-DD`\n\nExample: `2025-12-31`\n\n⏳ I\x27ll send daily reminders to keep everyone on track! 🚀"

/-- The escaped welcome message actually sent by `ask_for_deadline`. -/
def welcome_msg : String := clean_markdown welcomeTemplate

/-- The source function `send_countdown(group_id)`: nothing happens when the
group is absent from the in-memory cache; otherwise one message with
`format_message((deadlines[group_id] - date.today()).days)` is sent (a
delivery failure is caught and logged in the source, so the send attempt is
recorded unconditionally). -/
def send_countdown (today : Date) (gid : Int) (st : BotState) : List Ev :=
  match getKey gid st.deadlines with
  | none => []
  | some d => [Ev.sent gid (format_message (daysDiff d today))]

/-- The source handler `handle_deadline(update, context)` for a text message
in a group. `today` is `date.today()`; `storeOk` tells whether the awaited
`set_deadline_in_db` call succeeds — when it fails, the raised storage error
is not a `ValueError`, so it escapes the handler (logged by the global
`error_handler`) and execution stops right after the cache assignment. -/
def handle_deadline (today : Date) (storeOk : Bool) (gid : Int) (text : String)
    (st : BotState) : BotState × List Ev :=
  match parse_date text with
  | none => (st, [Ev.reply gid formatErrorMsg])
  | some d =>
    if daysDiff d today < 0 then
      (st, [Ev.reply gid pastMsg])
    else
      let st1 : BotState := { st with deadlines := dictSet gid d st.deadlines }
      if storeOk then
        let st2 : BotState := { st1 with store := dictSet gid d st1.store }
        let conf : Ev := Ev.reply gid (clean_markdown (confirmation_message d (daysDiff d today)))
        match getKey gid st2.jobs with
        | some j =>
          let st3 : BotState :=
            { st2 with jobs := dictSet gid st2.nextJob (delKey gid st2.jobs),
                       nextJob := st2.nextJob + 1 }
          (st3, [Ev.cacheUpdate gid d, Ev.storeUpsert gid d, Ev.jobRemoved gid j,
                 Ev.jobAdded gid st2.nextJob, conf] ++ send_countdown today gid st3)
        | none =>
          let st3 : BotState :=
            { st2 with jobs := dictSet gid st2.nextJob st2.jobs,
                       nextJob := st2.nextJob + 1 }
          (st3, [Ev.cacheUpdate gid d, Ev.storeUpsert gid d,
                 Ev.jobAdded gid st2.nextJob, conf] ++ send_countdown today gid st3)
      else
        (st1, [Ev.cacheUpdate gid d, Ev.storageException gid])

/-- The source handler `new_chat_member(update, context)`, once the guard
(the bot itself became member or administrator) has passed: the store is
queried; a stored date (always truthy) is loaded into the cache; then
`ask_for_deadline` is awaited unconditionally. No job is touched. -/
def new_chat_member (gid : Int) (st : BotState) : BotState × List Ev :=
  match getKey gid st.store with
  | some d => ({ st with deadlines := dictSet gid d st.deadlines },
               [Ev.prompt gid welcome_msg])
  | none => (st, [Ev.prompt gid welcome_msg])

/-- The source `main()` together with module initialization: the module-level
`deadlines` and `scheduled_jobs` dicts start empty, `create_db_pool` keeps
existing rows (`CREATE TABLE IF NOT EXISTS`), `scheduler.start()` starts an
empty scheduler, and handlers are registered; no further state change happens
before the first inbound event. `store` is the content of the database table
at startup. -/
def startup (store : List (Int × Date)) : BotState :=
  { deadlines := [], store := store, jobs := [], nextJob := 0 }

/-- An inbound event as dispatched by the registered handlers. -/
inductive Req where
  | submit (today : Date) (storeOk : Bool) (gid : Int) (text : String)
  | joined (gid : Int)

/-- State transition of one inbound event. -/
def stepReq (st : BotState) : Req → BotState
  | Req.submit today ok gid text => (handle_deadline today ok gid text st).1
  | Req.joined gid => (new_chat_member gid st).1

/-- Run of a sequence of inbound events from a state. -/
def runReqs (st : BotState) : List Req → BotState
  | [] => st
  | r :: rs => runReqs (stepReq st r) rs

/-- Sample date used as `date.today()` in concrete instances. -/
def today0 : Date := ⟨2025, 1, 1⟩

/-- The date 2099-01-01. -/
def dl2099 : Date := ⟨2099, 1, 1⟩

/-- The date 2000-01-01. -/
def dl2000 : Date := ⟨2000, 1, 1⟩

/-- The sample submission text `2099-01-01`. -/
def txt2099 : String := "2099-01-01"

/-- The sample past submission text `2000-01-01`. -/
def txt2000 : String := "2000-01-01"

/-- The sample malformed submission text `not-a-date`. -/
def txtBad : String := "not-a-date"

/-- A text free of MarkdownV2 special characters. -/
def plainSample : String := "hello world"

/-- The text holding each reserved character exactly once. -/
def allSpecialsStr : String := String.mk escape_chars

theorem getKey_dictSet_self {α : Type} (k : Int) (v : α) (l : List (Int × α)) :
    getKey k (dictSet k v l) = some v := by
  induction l with
  | nil => simp [dictSet, getKey]
  | cons p t ih =>
    obtain ⟨k0, v0⟩ := p
    by_cases h : k0 = k
    · simp [dictSet, getKey, h]
    · simp [dictSet, getKey, h, ih]

theorem cleanList_head_cons (c : Char) (t : List Char) (h : isSpecial c = false) :
    (cleanList (c :: t)).head? = some c := by
  simp [cleanList, cleanFrom, h]

/-- C8. Applying `clean_markdown` once to a text with no reserved characters
returns it unchanged; applying it once to a text with no backslashes (in
particular the text holding each reserved character exactly once) yields each
reserved character preceded by exactly one backslash and every other
character untouched. -/
theorem countdown_c8 (s : String) :
    ((∀ c ∈ s.data, isSpecial c = false) → clean_markdown s = s) ∧
    (bslash ∉ s.data →
      (clean_markdown s).data =
        s.data.flatMap (fun c => if isSpecial c = true then [bslash, c] else [c])) := by
  constructor
  · intro h
    cases s with
    | mk data =>
      simp only [clean_markdown, cleanList]
      rw [cleanFrom_of_no_special data none h]
  · intro h
    simp only [clean_markdown, cleanList]
    rw [cleanFrom_of_no_bslash s.data none h (by simp)]

theorem countdown_c8_witness :
    clean_markdown plainSample = plainSample ∧
    (clean_markdown allSpecialsStr).data =
      allSpecialsStr.data.flatMap
        (fun c => if isSpecial c = true then [bslash, c] else [c]) :=
  ⟨(countdown_c8 plainSample).1 (by decide),
   (countdown_c8 allSpecialsStr).2 (by decide)⟩

/-- C9, counterexample to the claim as stated: there is no input on which a
second application of `clean_markdown` changes the result — the negative
lookbehind makes the function idempotent. -/
theorem countdown_c9_cex :
    ¬ ∃ s : String, clean_markdown (clean_markdown s) ≠ clean_markdown s := by
  rintro ⟨s, hs⟩
  exact hs (clean_markdown_idem s)

/-- C9, amended: `clean_markdown` is idempotent — a character already escaped
is never escaped twice, so `escape(escape(x)) = escape(x)` for every input. -/
theorem countdown_c9 (s : String) :
    clean_markdown (clean_markdown s) = clean_markdown s :=
  clean_markdown_idem s

/-- C2. For non-negative day counts the composer picks the tone band of the
spec's table: 0 the fixed today-text, 1 the fixed one-day text, 2..3 the
urgent-short text, 4..7 the high-alert text, 8..14 the elevated-caution text,
and 15 or more the calm long-range text. -/
theorem countdown_c2 (n : Int) (hn : 0 ≤ n) :
    (n = 0 → format_message n = clean_markdown todayMsg) ∧
    (n = 1 → format_message n = clean_markdown oneDayMsg) ∧
    (2 ≤ n → n ≤ 3 → format_message n = clean_markdown (urgentShortMsg n)) ∧
    (4 ≤ n → n ≤ 7 → format_message n = clean_markdown (highAlertMsg n)) ∧
    (8 ≤ n → n ≤ 14 → format_message n = clean_markdown (cautionMsg n)) ∧
    (15 ≤ n → format_message n = clean_markdown (calmMsg n)) := by
  refine ⟨fun h => ?_, fun h => ?_, fun h2 h3 => ?_, fun h4 h7 => ?_,
    fun h8 h14 => ?_, fun h15 => ?_⟩
  · simp [format_message, h]
  · simp [format_message, h]
  · rw [format_message, if_neg (by omega : ¬ n = 0), if_neg (by omega : ¬ n = 1),
      if_pos h3]
  · rw [format_message, if_neg (by omega : ¬ n = 0), if_neg (by omega : ¬ n = 1),
      if_neg (by omega : ¬ n ≤ 3), if_pos h7]
  · rw [format_message, if_neg (by omega : ¬ n = 0), if_neg (by omega : ¬ n = 1),
      if_neg (by omega : ¬ n ≤ 3), if_neg (by omega : ¬ n ≤ 7), if_pos h14]
  · rw [format_message, if_neg (by omega : ¬ n = 0), if_neg (by omega : ¬ n = 1),
      if_neg (by omega : ¬ n ≤ 3), if_neg (by omega : ¬ n ≤ 7),
      if_neg (by omega : ¬ n ≤ 14)]

theorem countdown_c2_witness :
    (0 : Int) ≤ 5 ∧
    (((5 : Int) = 0 → format_message 5 = clean_markdown todayMsg) ∧
     ((5 : Int) = 1 → format_message 5 = clean_markdown oneDayMsg) ∧
     (2 ≤ (5 : Int) → (5 : Int) ≤ 3 → format_message 5 = clean_markdown (urgentShortMsg 5)) ∧
     (4 ≤ (5 : Int) → (5 : Int) ≤ 7 → format_message 5 = clean_markdown (highAlertMsg 5)) ∧
     (8 ≤ (5 : Int) → (5 : Int) ≤ 14 → format_message 5 = clean_markdown (cautionMsg 5)) ∧
     (15 ≤ (5 : Int) → format_message 5 = clean_markdown (calmMsg 5))) :=
  ⟨by decide, countdown_c2 5 (by decide)⟩

/-- C10. A strictly negative day count falls through `days == 0` and
`days == 1` into the `days <= 3` branch: it is rendered with the
urgent-short template (the band of 2 and 3 days) with the negative number
interpolated, and is distinct from the today and one-day texts. -/
theorem countdown_c10 (n : Int) (hn : n < 0) :
    format_message n = clean_markdown (urgentShortMsg n) ∧
    format_message n ≠ format_message 0 ∧
    format_message n ≠ format_message 1 := by
  have hmain : format_message n = clean_markdown (urgentShortMsg n) := by
    rw [format_message, if_neg (by omega : ¬ n = 0), if_neg (by omega : ¬ n = 1),
      if_pos (by omega : n ≤ 3)]
  have hhead : (format_message n).data.head? = some (Char.ofNat 128276) := by
    rw [hmain]
    have hdecomp : (urgentShortMsg n).data =
        Char.ofNat 128276 :: ' ' :: ((toString n).data ++
          (" DAYS LEFT! 🔔\n\n❗ Urgent Action Needed! ❗\n▪️ Prioritize critical tasks!\n▪️ No distractions!\n▪️ Stay focused! 🎯").data) := by
      simp [urgentShortMsg, String.data_append]
    simp only [clean_markdown, hdecomp]
    exact cleanList_head_cons _ _ (by decide)
  refine ⟨hmain, ?_, ?_⟩
  · intro heq
    have h0 : (format_message 0).data.head? = some (Char.ofNat 128680) := rfl
    rw [heq, h0] at hhead
    simp at hhead
  · intro heq
    have h1 : (format_message 1).data.head? = some (Char.ofNat 9888) := rfl
    rw [heq, h1] at hhead
    simp at hhead

theorem countdown_c10_witness :
    (-4 : Int) < 0 ∧
    (format_message (-4) = clean_markdown (urgentShortMsg (-4)) ∧
     format_message (-4) ≠ format_message 0 ∧
     format_message (-4) ≠ format_message 1) :=
  ⟨by decide, countdown_c10 (-4) (by decide)⟩

/-- Shape of a successful submission when the group already has a job. -/
theorem handle_deadline_shape_some (today : Date) (gid : Int) (text : String)
    (st : BotState) (d : Date) (j : Nat)
    (hp : parse_date text = some d) (hd : ¬ daysDiff d today < 0)
    (hj : getKey gid st.jobs = some j) :
    handle_deadline today true gid text st =
      ({ deadlines := dictSet gid d st.deadlines, store := dictSet gid d st.store,
         jobs := dictSet gid st.nextJob (delKey gid st.jobs),
         nextJob := st.nextJob + 1 },
       [Ev.cacheUpdate gid d, Ev.storeUpsert gid d, Ev.jobRemoved gid j,
        Ev.jobAdded gid st.nextJob,
        Ev.reply gid (clean_markdown (confirmation_message d (daysDiff d today))),
        Ev.sent gid (format_message (daysDiff d today))]) := by
  simp [handle_deadline, hp, hd, hj, send_countdown, getKey_dictSet_self]

/-- Shape of a successful submission when the group has no job yet. -/
theorem handle_deadline_shape_none (today : Date) (gid : Int) (text : String)
    (st : BotState) (d : Date)
    (hp : parse_date text = some d) (hd : ¬ daysDiff d today < 0)
    (hj : getKey gid st.jobs = none) :
    handle_deadline today true gid text st =
      ({ deadlines := dictSet gid d st.deadlines, store := dictSet gid d st.store,
         jobs := dictSet gid st.nextJob st.jobs, nextJob := st.nextJob + 1 },
       [Ev.cacheUpdate gid d, Ev.storeUpsert gid d,
        Ev.jobAdded gid st.nextJob,
        Ev.reply gid (clean_markdown (confirmation_message d (daysDiff d today))),
        Ev.sent gid (format_message (daysDiff d today))]) := by
  simp [handle_deadline, hp, hd, hj, send_countdown, getKey_dictSet_self]

/-- C1. A well-formed, non-past submission updates the cache, persists the
date, replaces the group's job (removing the old one when present), replies
with the confirmation stating the date and the days left, and then sends
exactly one immediate countdown delivery, in that order. -/
theorem countdown_c1 (today : Date) (gid : Int) (text : String) (st : BotState)
    (d : Date) (hp : parse_date text = some d) (hd : ¬ daysDiff d today < 0) :
    getKey gid (handle_deadline today true gid text st).1.deadlines = some d ∧
    getKey gid (handle_deadline today true gid text st).1.store = some d ∧
    getKey gid (handle_deadline today true gid text st).1.jobs = some st.nextJob ∧
    ∃ rm : List Ev, (rm = [] ∨ ∃ j, rm = [Ev.jobRemoved gid j]) ∧
      (handle_deadline today true gid text st).2 =
        Ev.cacheUpdate gid d :: Ev.storeUpsert gid d :: rm ++
          [Ev.jobAdded gid st.nextJob,
           Ev.reply gid (clean_markdown (confirmation_message d (daysDiff d today))),
           Ev.sent gid (format_message (daysDiff d today))] := by
  cases hj : getKey gid st.jobs with
  | some j =>
    rw [handle_deadline_shape_some today gid text st d j hp hd hj]
    refine ⟨getKey_dictSet_self gid d st.deadlines,
      getKey_dictSet_self gid d st.store,
      getKey_dictSet_self gid st.nextJob (delKey gid st.jobs),
      [Ev.jobRemoved gid j], Or.inr ⟨j, rfl⟩, rfl⟩
  | none =>
    rw [handle_deadline_shape_none today gid text st d hp hd hj]
    refine ⟨getKey_dictSet_self gid d st.deadlines,
      getKey_dictSet_self gid d st.store,
      getKey_dictSet_self gid st.nextJob st.jobs,
      [], Or.inl rfl, rfl⟩

theorem countdown_c1_witness :
    parse_date txt2099 = some dl2099 ∧ ¬ daysDiff dl2099 today0 < 0 ∧
    (getKey 1 (handle_deadline today0 true 1 txt2099 (startup [])).1.deadlines = some dl2099 ∧
     getKey 1 (handle_deadline today0 true 1 txt2099 (startup [])).1.store = some dl2099 ∧
     getKey 1 (handle_deadline today0 true 1 txt2099 (startup [])).1.jobs = some (startup []).nextJob ∧
     ∃ rm : List Ev, (rm = [] ∨ ∃ j, rm = [Ev.jobRemoved 1 j]) ∧
       (handle_deadline today0 true 1 txt2099 (startup [])).2 =
         Ev.cacheUpdate 1 dl2099 :: Ev.storeUpsert 1 dl2099 :: rm ++
           [Ev.jobAdded 1 (startup []).nextJob,
            Ev.reply 1 (clean_markdown (confirmation_message dl2099 (daysDiff dl2099 today0))),
            Ev.sent 1 (format_message (daysDiff dl2099 today0))]) :=
  ⟨by decide, by decide,
   countdown_c1 today0 1 txt2099 (startup []) dl2099 (by decide) (by decide)⟩

/-- C4. A malformed text (the `ValueError` branch) or a past date leaves the
whole state untouched and produces exactly one specific error reply. -/
theorem countdown_c4 (today : Date) (ok : Bool) (gid : Int) (text : String)
    (st : BotState) :
    (parse_date text = none →
      handle_deadline today ok gid text st = (st, [Ev.reply gid formatErrorMsg])) ∧
    (∀ d, parse_date text = some d → daysDiff d today < 0 →
      handle_deadline today ok gid text st = (st, [Ev.reply gid pastMsg])) := by
  constructor
  · intro h
    simp [handle_deadline, h]
  · intro d hp hd
    simp [handle_deadline, hp, hd]

theorem countdown_c4_witness :
    (parse_date txtBad = none ∧
     handle_deadline today0 true 1 txtBad (startup []) =
       ((startup []), [Ev.reply 1 formatErrorMsg])) ∧
    (parse_date txt2000 = some dl2000 ∧ daysDiff dl2000 today0 < 0 ∧
     handle_deadline today0 true 1 txt2000 (startup []) =
       ((startup []), [Ev.reply 1 pastMsg])) :=
  ⟨⟨by decide, (countdown_c4 today0 true 1 txtBad (startup [])).1 (by decide)⟩,
   ⟨by decide, by decide,
    (countdown_c4 today0 true 1 txt2000 (startup [])).2 dl2000 (by decide) (by decide)⟩⟩

/-- Number of entries of an association list carrying a given key. -/
def countKey {α : Type} (k : Int) (l : List (Int × α)) : Nat :=
  (l.filter (fun p => decide (p.1 = k))).length

theorem countKey_cons {α : Type} (k k0 : Int) (v0 : α) (t : List (Int × α)) :
    countKey k ((k0, v0) :: t) = (if k0 = k then 1 else 0) + countKey k t := by
  by_cases h : k0 = k
  · simp [countKey, List.filter, h, Nat.add_comm]
  · simp [countKey, List.filter, h]

theorem countKey_dictSet_self {α : Type} (k : Int) (v : α) (l : List (Int × α)) :
    countKey k (dictSet k v l) = max (countKey k l) 1 := by
  induction l with
  | nil => simp [dictSet, countKey_cons, countKey]
  | cons p t ih =>
    obtain ⟨k0, v0⟩ := p
    by_cases h : k0 = k
    · simp [dictSet, if_pos h, countKey_cons, h]
    · simp only [dictSet, if_neg h, countKey_cons, if_neg h, ih]
      omega

theorem countKey_dictSet_ne {α : Type} (k k' : Int) (v : α) (l : List (Int × α))
    (h : k ≠ k') : countKey k (dictSet k' v l) = countKey k l := by
  induction l with
  | nil => simp [dictSet, countKey_cons, countKey, Ne.symm h]
  | cons p t ih =>
    obtain ⟨k0, v0⟩ := p
    by_cases h0 : k0 = k'
    · subst h0
      simp [dictSet, countKey_cons, Ne.symm h]
    · simp [dictSet, if_neg h0, countKey_cons, ih]

theorem countKey_delKey_self {α : Type} (k : Int) (l : List (Int × α)) :
    countKey k (delKey k l) = 0 := by
  induction l with
  | nil => rfl
  | cons p t ih =>
    obtain ⟨k0, v0⟩ := p
    by_cases h : k0 = k
    · simp [delKey, h, ih]
    · simp [delKey, h, countKey_cons, ih]

theorem countKey_delKey_ne {α : Type} (k k' : Int) (l : List (Int × α))
    (h : k ≠ k') : countKey k (delKey k' l) = countKey k l := by
  induction l with
  | nil => rfl
  | cons p t ih =>
    obtain ⟨k0, v0⟩ := p
    by_cases h0 : k0 = k'
    · subst h0
      simp [delKey, countKey_cons, Ne.symm h, ih]
    · simp [delKey, if_neg h0, countKey_cons, ih]

/-- The scheduler invariant: every group has at most one live job. -/
def jobsWF (st : BotState) : Prop := ∀ k : Int, countKey k st.jobs ≤ 1

theorem jobsWF_handle_deadline (today : Date) (ok : Bool) (gid : Int)
    (text : String) (st : BotState) (h : jobsWF st) :
    jobsWF (handle_deadline today ok gid text st).1 := by
  cases hp : parse_date text with
  | none => simpa [handle_deadline, hp] using h
  | some d =>
    by_cases hdd : daysDiff d today < 0
    · simpa [handle_deadline, hp, hdd] using h
    · cases ok with
      | false =>
        intro k
        simpa [handle_deadline, hp, hdd] using h k
      | true =>
        cases hj : getKey gid st.jobs with
        | some j =>
          rw [handle_deadline_shape_some today gid text st d j hp hdd hj]
          intro k
          by_cases hk : k = gid
          · subst hk
            rw [countKey_dictSet_self, countKey_delKey_self]
            simp
          · rw [countKey_dictSet_ne k gid _ _ hk, countKey_delKey_ne k gid _ hk]
            exact h k
        | none =>
          rw [handle_deadline_shape_none today gid text st d hp hdd hj]
          intro k
          by_cases hk : k = gid
          · subst hk
            rw [countKey_dictSet_self]
            have := h k
            omega
          · rw [countKey_dictSet_ne k gid _ _ hk]
            exact h k

theorem new_chat_member_jobs (gid : Int) (st : BotState) :
    (new_chat_member gid st).1.jobs = st.jobs := by
  cases h : getKey gid st.store <;> simp [new_chat_member, h]

theorem jobsWF_runReqs (reqs : List Req) :
    ∀ st : BotState, jobsWF st → jobsWF (runReqs st reqs) := by
  induction reqs with
  | nil => intro st h; exact h
  | cons r rs ih =>
    intro st h
    cases r with
    | submit today ok gid text =>
      exact ih _ (jobsWF_handle_deadline today ok gid text st h)
    | joined gid =>
      refine ih _ ?_
      intro k
      simp only [stepReq, new_chat_member_jobs]
      exact h k

/-- A state holding one live job (number 0) for group 1. -/
def stWithJob : BotState := ⟨[], [], [(1, 0)], 1⟩

/-- C3. In every state reachable from startup under any sequence of inbound
events, each group has at most one live scheduled job; and a successful
submission for a group that already holds a job removes the old job strictly
before installing the new one, which then is the group's only job. -/
theorem countdown_c3 :
    (∀ (store : List (Int × Date)) (reqs : List Req) (k : Int),
        countKey k (runReqs (startup store) reqs).jobs ≤ 1) ∧
    (∀ (today : Date) (gid : Int) (text : String) (st : BotState) (d : Date) (j : Nat),
        parse_date text = some d → ¬ daysDiff d today < 0 →
        getKey gid st.jobs = some j →
        getKey gid (handle_deadline today true gid text st).1.jobs = some st.nextJob ∧
        ∃ pre post : List Ev, (handle_deadline today true gid text st).2 =
          pre ++ Ev.jobRemoved gid j :: Ev.jobAdded gid st.nextJob :: post) := by
  constructor
  · intro store reqs k
    refine jobsWF_runReqs reqs (startup store) ?_ k
    intro k0
    simp [startup, countKey]
  · intro today gid text st d j hp hd hj
    rw [handle_deadline_shape_some today gid text st d j hp hd hj]
    exact ⟨getKey_dictSet_self gid st.nextJob (delKey gid st.jobs),
      [Ev.cacheUpdate gid d, Ev.storeUpsert gid d],
      [Ev.reply gid (clean_markdown (confirmation_message d (daysDiff d today))),
       Ev.sent gid (format_message (daysDiff d today))], rfl⟩

theorem countdown_c3_witness :
    parse_date txt2099 = some dl2099 ∧ ¬ daysDiff dl2099 today0 < 0 ∧
    getKey 1 stWithJob.jobs = some 0 ∧
    (getKey 1 (handle_deadline today0 true 1 txt2099 stWithJob).1.jobs =
       some stWithJob.nextJob ∧
     ∃ pre post : List Ev, (handle_deadline today0 true 1 txt2099 stWithJob).2 =
       pre ++ Ev.jobRemoved 1 0 :: Ev.jobAdded 1 stWithJob.nextJob :: post) :=
  ⟨by decide, by decide, by decide,
   countdown_c3.2 today0 1 txt2099 stWithJob dl2099 0 (by decide) (by decide) (by decide)⟩

/-- A state whose store holds a deadline for group 1 and nothing else. -/
def stStored : BotState := ⟨[], [(1, dl2099)], [], 0⟩

/-- C5, counterexample to the claim as stated: after `main()` starts the
process, a group with a stored deadline has no job installed — `main` never
reads the table back into the scheduler. -/
theorem countdown_c5_cex :
    ¬ (∀ (store : List (Int × Date)) (gid : Int) (d : Date), (gid, d) ∈ store →
        (getKey gid (startup store).jobs).isSome = true) := by
  intro h
  have h1 := h [(1, dl2099)] 1 dl2099 (List.mem_singleton.mpr rfl)
  exact absurd h1 (by decide)

/-- C5, amended: on restart no rehydration happens — the scheduler job table
and the in-memory cache both start empty whatever the store holds, and jobs
only appear later through deadline submissions. -/
theorem countdown_c5 (store : List (Int × Date)) :
    (startup store).jobs = [] ∧ (startup store).deadlines = [] ∧
    (startup store).store = store :=
  ⟨rfl, rfl, rfl⟩

/-- C6, counterexample to the claim as stated: when the store already holds a
deadline for the joined group, the handler neither installs a job nor
suppresses the onboarding prompt. -/
theorem countdown_c6_cex :
    ¬ (∀ (st : BotState) (gid : Int), (getKey gid st.store).isSome = true →
        (getKey gid (new_chat_member gid st).1.jobs).isSome = true ∧
        ∀ t, Ev.prompt gid t ∉ (new_chat_member gid st).2) := by
  intro h
  have h1 := (h stStored 1 (by decide)).1
  exact absurd h1 (by decide)

/-- C6, amended: on a JoinedGroup event a stored deadline is loaded into the
cache but no job is installed, and the onboarding prompt is sent
unconditionally — also when a deadline exists. -/
theorem countdown_c6 (st : BotState) (gid : Int) :
    (∀ d, getKey gid st.store = some d →
      new_chat_member gid st =
        ({ st with deadlines := dictSet gid d st.deadlines },
         [Ev.prompt gid welcome_msg])) ∧
    (getKey gid st.store = none →
      new_chat_member gid st = (st, [Ev.prompt gid welcome_msg])) := by
  constructor
  · intro d hd
    simp [new_chat_member, hd]
  · intro hn
    simp [new_chat_member, hn]

theorem countdown_c6_witness :
    (getKey 1 stStored.store = some dl2099 ∧
     new_chat_member 1 stStored =
       ({ stStored with deadlines := dictSet 1 dl2099 stStored.deadlines },
        [Ev.prompt 1 welcome_msg])) ∧
    (getKey 2 stStored.store = none ∧
     new_chat_member 2 stStored = (stStored, [Ev.prompt 2 welcome_msg])) :=
  ⟨⟨by decide, (countdown_c6 stStored 1).1 dl2099 (by decide)⟩,
   ⟨by decide, (countdown_c6 stStored 2).2 (by decide)⟩⟩

/-- C7, counterexample to the claim as stated: when the persist step fails,
the cache and the store are left disagreeing about the group — the cache
update is neither rolled back nor retried. -/
theorem countdown_c7_cex :
    ¬ (∀ (today : Date) (gid : Int) (text : String) (st : BotState) (d : Date),
        parse_date text = some d → ¬ daysDiff d today < 0 →
        getKey gid (handle_deadline today false gid text st).1.deadlines =
          getKey gid (handle_deadline today false gid text st).1.store) := by
  intro h
  have h1 := h today0 1 txt2099 (startup []) dl2099 (by decide) (by decide)
  exact absurd h1 (by decide)

/-- C7, amended: a failed persist stops the handler before any job change,
reply or delivery (the storage exception escapes to the global error
handler), the store and job table stay as they were, but the in-memory cache
keeps the freshly written deadline, so cache and store can disagree. -/
theorem countdown_c7 (today : Date) (gid : Int) (text : String) (st : BotState)
    (d : Date) (hp : parse_date text = some d) (hd : ¬ daysDiff d today < 0) :
    handle_deadline today false gid text st =
      ({ st with deadlines := dictSet gid d st.deadlines },
       [Ev.cacheUpdate gid d, Ev.storageException gid]) := by
  simp [handle_deadline, hp, hd]

theorem countdown_c7_witness :
    parse_date txt2099 = some dl2099 ∧ ¬ daysDiff dl2099 today0 < 0 ∧
    handle_deadline today0 false 1 txt2099 (startup []) =
      ({ (startup []) with deadlines := dictSet 1 dl2099 (startup []).deadlines },
       [Ev.cacheUpdate 1 dl2099, Ev.storageException 1]) :=
  ⟨by decide, by decide,
   countdown_c7 today0 1 txt2099 (startup []) dl2099 (by decide) (by decide)⟩
